import Mathlib

/-!
Shallow embedding of the audio-mixing service in `src/app.py`
(Flask endpoint `mix_audio` built on pydub `AudioSegment`s).

An `AudioSegment` is modelled by a composition tree `Seg` recording how the
program was assembled; its observable duration (`len(seg)` in pydub,
milliseconds) is `Seg.duration`.  pydub semantics used by the code:
  * `a + b` is plain concatenation, duration `len(a) + len(b)`;
  * `a.append(b, crossfade=cf)` overlaps the two by `cf` ms,
    duration `len(a) + len(b) - cf` (valid since the code clamps
    `cf < min(len(a), len(b))`);
  * `AudioSegment.silent(duration=g)` has duration `g`;
  * `voice.overlay(background)` keeps the duration of `voice`;
  * `seg * n` repeats, duration `n * len(seg)`; `seg[:v]` truncates to
    `min(len(seg), v)`;
  * adding a gain (`seg + volume_db`) does not change duration, so volume
    adjustment is not represented in the tree.
-/

/-- Composition tree of pydub `AudioSegment` values as built by `mix_audio`.
`atom d` is a loaded (or overlaid) segment of duration `d` ms. -/
inductive Seg where
  | atom (d : Nat)
  | silent (d : Nat)
  | concat (a b : Seg)
  | appendCrossfade (a b : Seg) (cf : Nat)
  deriving DecidableEq, Repr

/-- `len(seg)` in pydub: the duration in milliseconds. -/
def Seg.duration : Seg → Nat
  | .atom d => d
  | .silent d => d
  | .concat a b => a.duration + b.duration
  | .appendCrossfade a b cf => a.duration + b.duration - cf

/-- The rightmost leaf of the composition tree: the final piece of audio in
the assembled program. -/
def Seg.lastLeaf : Seg → Seg
  | .atom d => .atom d
  | .silent d => .silent d
  | .concat _ b => b.lastLeaf
  | .appendCrossfade _ b _ => b.lastLeaf

/-- The leaves of the composition tree, left to right: the program as a
sequence of its constituent pieces. -/
def Seg.leaves : Seg → List Seg
  | .atom d => [.atom d]
  | .silent d => [.silent d]
  | .concat a b => a.leaves ++ b.leaves
  | .appendCrossfade a b _ => a.leaves ++ b.leaves

/-- The crossfade clamp of `mix_audio` (app.py lines 283 and 299):
`max(0, min(c, d1 - 1, d2 - 1))` computed in Python `int` arithmetic,
where `d1`, `d2` are the durations of the two adjoining segments. -/
def clampCf (c : Int) (d1 d2 : Nat) : Int :=
  max 0 (min c (min ((d1 : Int) - 1) ((d2 : Int) - 1)))

/-- Intro composition (app.py lines 281-293): if `crossfade_intro_ms > 0`
clamp and either crossfade-append or plain-concatenate; otherwise hard cut
with optional `gap_before_ms` silence between intro and program. -/
def addIntro (beginning program : Seg) (crossfade_intro_ms gap_before_ms : Int) : Seg :=
  if crossfade_intro_ms > 0 then
    let cf := clampCf crossfade_intro_ms beginning.duration program.duration
    if cf > 0 then
      .appendCrossfade beginning program cf.toNat
    else
      .concat beginning program
  else
    if gap_before_ms > 0 then
      .concat (.concat beginning (.silent gap_before_ms.toNat)) program
    else
      .concat beginning program

/-- Outro composition (app.py lines 296-311): if `crossfade_outro_ms > 0`
clamp and crossfade-append (or concatenate), then append `gap_after_ms`
silence AFTER the outro; otherwise hard cut with the optional silence
inserted BEFORE the outro. -/
def addOutro (program ending : Seg) (crossfade_outro_ms gap_after_ms : Int) : Seg :=
  if crossfade_outro_ms > 0 then
    let cf := clampCf crossfade_outro_ms program.duration ending.duration
    let p :=
      if cf > 0 then
        Seg.appendCrossfade program ending cf.toNat
      else
        Seg.concat program ending
    if gap_after_ms > 0 then .concat p (.silent gap_after_ms.toNat) else p
  else
    let p :=
      if gap_after_ms > 0 then
        Seg.concat program (.silent gap_after_ms.toNat)
      else
        program
    .concat p ending

/-- The gap/crossfade parameters of a `mix_audio` request (Python ints). -/
structure MixParams where
  crossfade_intro_ms : Int
  crossfade_outro_ms : Int
  gap_before_ms : Int
  gap_after_ms : Int
  deriving DecidableEq, Repr

/-- Full program composition (app.py lines 277-313): start from the main
mix, optionally add the intro, optionally add the outro. -/
def composeProgram (mixed : Seg) (beginning ending : Option Seg) (P : MixParams) : Seg :=
  let p1 :=
    match beginning with
    | some b => addIntro b mixed P.crossfade_intro_ms P.gap_before_ms
    | none => mixed
  match ending with
  | some e => addOutro p1 e P.crossfade_outro_ms P.gap_after_ms
  | none => p1

/-- Loop count of the background-fit stage (app.py line 270):
`len(voice) // len(background) + 1`, defined only when the divisor is
nonzero (Python raises `ZeroDivisionError` otherwise). -/
def loops_needed (voiceLen bgLen : Nat) : Nat :=
  voiceLen / bgLen + 1

/-- Background fit (app.py lines 268-272): tile when shorter than the
voice, then truncate with `background[:len(voice)]`.  Returns the resulting
duration, or the Python exception message when `len(background) = 0` makes
the loop-count division raise. -/
def fitBackground (voiceLen bgLen : Nat) : Except String Nat :=
  if bgLen < voiceLen then
    if bgLen = 0 then
      .error "integer division or modulo by zero"
    else
      .ok (min (loops_needed voiceLen bgLen * bgLen) voiceLen)
  else
    .ok (min bgLen voiceLen)

/-- `voice.overlay(background)` (app.py line 275): pydub keeps the
duration of the receiver. -/
def overlayLen (voiceLen bgLen : Nat) : Nat :=
  voiceLen

/-- The temp files the handler can create under its `tempfile.mkdtemp()`
directory (app.py lines 222-226). -/
inductive TempFile where
  | voice
  | bg
  | beginning
  | ending
  | output
  deriving DecidableEq, Repr

/-- A `mix_audio` request as seen after JSON parsing: `hasBody` is whether
`request.get_json()` returned truthy data; the URL fields are `none` when
absent or falsy (`voice_audio_url`) or after `_normalize_optional_url`
(intro/outro). -/
structure MixRequest where
  hasBody : Bool
  voice_audio_url : Option String
  beginning_audio_url : Option String
  ending_audio_url : Option String
  params : MixParams
  deriving DecidableEq, Repr

/-- The environment the handler runs against: which downloads succeed and
the decoded durations of the audio files. -/
structure DownloadWorld where
  voiceOk : Bool
  bgOk : Bool
  beginningOk : Bool
  endingOk : Bool
  voiceLen : Nat
  bgLen : Nat
  beginningLen : Nat
  endingLen : Nat
  deriving DecidableEq, Repr

/-- The observable outcome of one `mix_audio` call: HTTP status, the temp
files still on disk when the response is returned, whether the temp
directory was created and whether it was removed, and the composed program
on success. -/
structure HandlerResult where
  status : Nat
  body : Option String
  filesOnDisk : List TempFile
  tempDirCreated : Bool
  tempDirRemoved : Bool
  program : Option Seg
  deriving DecidableEq, Repr

/-- The `mix_audio` handler (app.py lines 180-360), straight-line:
body/URL validation before any filesystem activity; `mkdtemp`; downloads
with early `return`s that perform NO cleanup; then the processing pipeline
whose only modelled exception is the `ZeroDivisionError` of the loop-count
division, caught by the `except` block which removes the created files and
the directory before returning 500.  On success all temp files and the
directory are removed before the file response is sent. -/
def mix_audio (req : MixRequest) (w : DownloadWorld) : HandlerResult :=
  if !req.hasBody then
    ⟨400, some "No JSON data provided", [], false, false, none⟩
  else if req.voice_audio_url.isNone then
    ⟨400, some "voice_audio_url is required", [], false, false, none⟩
  else
    -- temp_dir = tempfile.mkdtemp() happens here
    if !w.voiceOk then
      ⟨400, some "Failed to download voice audio", [], true, false, none⟩
    else if !w.bgOk then
      -- early return: created_files = [voice_file] is NOT cleaned up
      ⟨500, some "Failed to download background music", [.voice], true, false, none⟩
    else if req.beginning_audio_url.isSome && !w.beginningOk then
      ⟨400, some "Failed to download beginning (intro) audio",
       [.voice, .bg], true, false, none⟩
    else if req.ending_audio_url.isSome && !w.endingOk then
      ⟨400, some "Failed to download ending (outro) audio",
       [.voice, .bg] ++ (if req.beginning_audio_url.isSome then [.beginning] else []),
       true, false, none⟩
    else
      match fitBackground w.voiceLen w.bgLen with
      | .error msg =>
          -- except branch: remove created files, rmdir, return 500
          ⟨500, some ("Processing error: " ++ msg), [], true, true, none⟩
      | .ok fitted =>
          let mixed := Seg.atom (overlayLen w.voiceLen fitted)
          let beginning :=
            if req.beginning_audio_url.isSome then some (Seg.atom w.beginningLen) else none
          let ending :=
            if req.ending_audio_url.isSome then some (Seg.atom w.endingLen) else none
          ⟨200, none, [], true, true,
           some (composeProgram mixed beginning ending req.params)⟩


/-! ### Helper lemmas about the crossfade clamp -/

lemma clampCf_nonneg (c : Int) (d1 d2 : Nat) : 0 ≤ clampCf c d1 d2 := by
  unfold clampCf; omega

lemma clampCf_pos_c {c : Int} {d1 d2 : Nat} (h : 0 < clampCf c d1 d2) : 0 < c := by
  unfold clampCf at h; omega

lemma clampCf_toNat_le_left {c : Int} {d1 d2 : Nat} (h : 0 < clampCf c d1 d2) :
    (clampCf c d1 d2).toNat ≤ d1 := by
  unfold clampCf at h ⊢; omega

lemma clampCf_toNat_le_right {c : Int} {d1 d2 : Nat} (h : 0 < clampCf c d1 d2) :
    (clampCf c d1 d2).toNat ≤ d2 := by
  unfold clampCf at h ⊢; omega

lemma clampCf_of_nonpos {c : Int} (hc : c ≤ 0) (d1 d2 : Nat) :
    clampCf c d1 d2 = 0 := by
  unfold clampCf; omega

/-- C1: for every pair of adjoining segments with durations `d1`, `d2` and
every requested crossfade `c` (intro or outro), the effective crossfade
passed to `append` is `max(0, min(c, d1-1, d2-1))` (that is, `clampCf`):
whenever this value is positive the composer produces exactly the
crossfade-append with that value, and whenever it is `0` the join is plain
concatenation (possibly with the configured gap silence on the hard-cut
branch) — no crossfade node is produced and no error is raised. -/
theorem crossfade_clamp (b p e : Seg) (c g : Int) :
    (0 < clampCf c b.duration p.duration →
      addIntro b p c g =
        .appendCrossfade b p (clampCf c b.duration p.duration).toNat) ∧
    (clampCf c b.duration p.duration = 0 →
      addIntro b p c g = .concat b p ∨
      addIntro b p c g = .concat (.concat b (.silent g.toNat)) p) ∧
    (0 < clampCf c p.duration e.duration →
      addOutro p e c g =
        .appendCrossfade p e (clampCf c p.duration e.duration).toNat ∨
      addOutro p e c g =
        .concat (.appendCrossfade p e (clampCf c p.duration e.duration).toNat)
          (.silent g.toNat)) ∧
    (clampCf c p.duration e.duration = 0 →
      addOutro p e c g = .concat p e ∨
      addOutro p e c g = .concat (.concat p e) (.silent g.toNat) ∨
      addOutro p e c g = .concat (.concat p (.silent g.toNat)) e) := by
  refine ⟨?_, ?_, ?_, ?_⟩
  · intro h
    have hc : 0 < c := clampCf_pos_c h
    simp [addIntro, hc, h]
  · intro h
    by_cases hc : 0 < c
    · simp [addIntro, hc, h]
    · have h1 : ¬ (c > 0) := by omega
      by_cases hg : 0 < g
      · simp [addIntro, h1, hg]
      · have h2 : ¬ (g > 0) := by omega
        simp [addIntro, h1, h2]
  · intro h
    have hc : 0 < c := clampCf_pos_c h
    by_cases hg : 0 < g
    · right; simp [addOutro, hc, h, hg]
    · have h2 : ¬ (g > 0) := by omega
      left; simp [addOutro, hc, h, h2]
  · intro h
    by_cases hc : 0 < c
    · by_cases hg : 0 < g
      · right; left; simp [addOutro, hc, h, hg]
      · have h2 : ¬ (g > 0) := by omega
        left; simp [addOutro, hc, h, h2]
    · have h1 : ¬ (c > 0) := by omega
      by_cases hg : 0 < g
      · right; right; simp [addOutro, h1, hg]
      · have h2 : ¬ (g > 0) := by omega
        left; simp [addOutro, h1, h2]

/-- Witness for C1: a concrete request with crossfade 700 over segments of
1000 ms and 500 ms is clamped to 499 and passed to `append` exactly. -/
theorem crossfade_clamp_witness :
    addIntro (.atom 1000) (.atom 500) 700 0
      = .appendCrossfade (.atom 1000) (.atom 500) 499 := by
  have h := (crossfade_clamp (.atom 1000) (.atom 500) (.atom 1) 700 0).1 (by decide)
  rw [h]; decide

/-- C9: a strictly negative requested crossfade takes the hard-cut branch
exactly as if it were 0: the negative value is never passed to `append`,
and the gap silence is inserted on that branch when positive (between
intro and program; before the outro). -/
theorem negative_crossfade_hard_cut (b p e : Seg) (c g : Int) (hc : c < 0) :
    addIntro b p c g = addIntro b p 0 g ∧
    addOutro p e c g = addOutro p e 0 g ∧
    (0 < g →
      addIntro b p c g = .concat (.concat b (.silent g.toNat)) p ∧
      addOutro p e c g = .concat (.concat p (.silent g.toNat)) e) ∧
    (g ≤ 0 →
      addIntro b p c g = .concat b p ∧
      addOutro p e c g = .concat p e) := by
  have h1 : ¬ (c > 0) := by omega
  have h0 : ¬ ((0 : Int) > 0) := by omega
  refine ⟨?_, ?_, ?_, ?_⟩
  · by_cases hg : 0 < g
    · simp [addIntro, h1, h0, hg]
    · have h2 : ¬ (g > 0) := by omega
      simp [addIntro, h1, h0, h2]
  · by_cases hg : 0 < g
    · simp [addOutro, h1, h0, hg]
    · have h2 : ¬ (g > 0) := by omega
      simp [addOutro, h1, h0, h2]
  · intro hg
    exact ⟨by simp [addIntro, h1, hg], by simp [addOutro, h1, hg]⟩
  · intro hg
    have h2 : ¬ (g > 0) := by omega
    exact ⟨by simp [addIntro, h1, h2], by simp [addOutro, h1, h2]⟩

/-- Witness for C9: crossfade `-50` with gap `250` behaves as crossfade `0`
and inserts the silence on the hard-cut branch. -/
theorem negative_crossfade_hard_cut_witness :
    addIntro (.atom 100) (.atom 200) (-50) 250 = addIntro (.atom 100) (.atom 200) 0 250 ∧
    addIntro (.atom 100) (.atom 200) (-50) 250
      = .concat (.concat (.atom 100) (.silent 250)) (.atom 200) := by
  have h := negative_crossfade_hard_cut (.atom 100) (.atom 200) (.atom 300) (-50) 250
    (by decide)
  exact ⟨h.1, (h.2.2.1 (by decide)).1⟩

/-- C6: with an intro, `crossfade_intro_ms = 0` and `gap_before_ms = G > 0`,
the program is intro ++ G ms of silence ++ main mix, of duration exactly
`duration(intro) + G + duration(main mix)`. -/
theorem intro_gap_duration (b p : Seg) (g : Int) (hg : 0 < g) :
    addIntro b p 0 g = .concat (.concat b (.silent g.toNat)) p ∧
    (addIntro b p 0 g).duration = b.duration + g.toNat + p.duration := by
  have h0 : ¬ ((0 : Int) > 0) := by omega
  have h2 : addIntro b p 0 g = .concat (.concat b (.silent g.toNat)) p := by
    simp [addIntro, h0, hg]
  exact ⟨h2, by rw [h2]; simp [Seg.duration]⟩

/-- Witness for C6: intro of 4000 ms, gap 250 ms, mix of 60000 ms gives a
64250 ms program with the silence in the middle. -/
theorem intro_gap_duration_witness :
    addIntro (.atom 4000) (.atom 60000) 0 250
      = .concat (.concat (.atom 4000) (.silent 250)) (.atom 60000) ∧
    (addIntro (.atom 4000) (.atom 60000) 0 250).duration = 64250 := by
  have h := intro_gap_duration (.atom 4000) (.atom 60000) 250 (by decide)
  exact ⟨h.1, by rw [h.2]; decide⟩

/-- C2 counterexample: with an outro of 500 ms, `gap_after_ms = 300 > 0`
and `crossfade_outro_ms = 0`, the code places the 300 ms silence BEFORE
the outro: the program's final piece is the outro, not the silence, so the
silence is not "after the outro regardless of crossfade". -/
theorem gap_after_outro_cex :
    addOutro (.atom 1000) (.atom 500) 0 300
      = .concat (.concat (.atom 1000) (.silent 300)) (.atom 500) ∧
    (addOutro (.atom 1000) (.atom 500) 0 300).leaves
      = [.atom 1000, .silent 300, .atom 500] ∧
    (addOutro (.atom 1000) (.atom 500) 0 300).lastLeaf = .atom 500 ∧
    (addOutro (.atom 1000) (.atom 500) 0 300).lastLeaf ≠ .silent 300 := by
  decide

/-- C2 amended: when `crossfade_outro_ms > 0` the `gap_after_ms` silence is
appended strictly after the crossfaded (or concatenated) result, ending
the program; when `crossfade_outro_ms ≤ 0` (hard cut) the silence is
inserted BEFORE the outro and the outro ends the program. -/
theorem gap_after_outro_amended (p e : Seg) (c g : Int) (hg : 0 < g) :
    (0 < c →
      addOutro p e c g =
        .concat
          (if 0 < clampCf c p.duration e.duration then
            Seg.appendCrossfade p e (clampCf c p.duration e.duration).toNat
          else Seg.concat p e)
          (.silent g.toNat) ∧
      (addOutro p e c g).lastLeaf = .silent g.toNat) ∧
    (c ≤ 0 →
      addOutro p e c g = .concat (.concat p (.silent g.toNat)) e ∧
      (addOutro p e c g).lastLeaf = e.lastLeaf) := by
  constructor
  · intro hc
    have h1 : addOutro p e c g =
        .concat
          (if 0 < clampCf c p.duration e.duration then
            Seg.appendCrossfade p e (clampCf c p.duration e.duration).toNat
          else Seg.concat p e)
          (.silent g.toNat) := by
      by_cases hcf : 0 < clampCf c p.duration e.duration
      · simp [addOutro, hc, hg, hcf]
      · simp [addOutro, hc, hg, hcf]
    exact ⟨h1, by rw [h1]; simp [Seg.lastLeaf]⟩
  · intro hc
    have h1 : ¬ (c > 0) := by omega
    have h2 : addOutro p e c g = .concat (.concat p (.silent g.toNat)) e := by
      simp [addOutro, h1, hg]
    exact ⟨h2, by rw [h2]; simp [Seg.lastLeaf]⟩

/-- Witness for C2 (amended): outro crossfade 200 over a 1000 ms program
and a 500 ms outro, gap 300: the silence is the final element after the
crossfade; with crossfade 0 the outro is final. -/
theorem gap_after_outro_amended_witness :
    addOutro (.atom 1000) (.atom 500) 200 300
      = .concat (.appendCrossfade (.atom 1000) (.atom 500) 200) (.silent 300) ∧
    (addOutro (.atom 1000) (.atom 500) 200 300).lastLeaf = .silent 300 := by
  have h := (gap_after_outro_amended (.atom 1000) (.atom 500) 200 300 (by decide)).1
    (by decide)
  refine ⟨?_, h.2⟩
  rw [h.1]; decide

/-! ### Background tiling -/

lemma lt_loops_needed_mul (V B : Nat) (hB : 0 < B) :
    V < loops_needed V B * B := by
  unfold loops_needed
  have hm : V % B < B := Nat.mod_lt _ hB
  calc V = B * (V / B) + V % B := (Nat.div_add_mod V B).symm
    _ < B * (V / B) + B := Nat.add_lt_add_left hm _
    _ = (V / B + 1) * B := by ring

/-- C3 counterexample: for `V = 10`, `B = 5` (so `B < V`, both positive),
`k = 2` already satisfies `k * B ≥ V`, yet the code's count
`floor(V/B) + 1` is `3`: the tiling count is NOT the minimum integer `k`
with `k * B ≥ V` when `B` divides `V`. -/
theorem loops_needed_cex :
    0 < (5 : Nat) ∧ (5 : Nat) < 10 ∧
    10 ≤ 2 * 5 ∧ loops_needed 10 5 = 3 ∧ ¬ loops_needed 10 5 ≤ 2 := by
  decide

/-- C3 amended: the tiling count is `floor(V/B) + 1`; it always makes the
tiled length strictly exceed `V` (so trimming yields exactly `V`), and it
is the minimum `k` with `k * B ≥ V` exactly when `B` does not divide `V`;
when `B ∣ V` the minimum is `V / B`, one less than the code's count. -/
theorem loops_needed_amended (V B : Nat) (hB : 0 < B) (hBV : B < V) :
    loops_needed V B = V / B + 1 ∧
    V < loops_needed V B * B ∧
    (¬ B ∣ V → ∀ k, V ≤ k * B → loops_needed V B ≤ k) ∧
    (B ∣ V → V = V / B * B ∧ loops_needed V B = V / B + 1) := by
  refine ⟨rfl, lt_loops_needed_mul V B hB, ?_, ?_⟩
  · intro hnd k hk
    by_contra hlt
    push_neg at hlt
    have hkle : k ≤ V / B := by
      unfold loops_needed at hlt; omega
    have h1 : k * B ≤ V / B * B := Nat.mul_le_mul_right B hkle
    have h2 : V / B * B < V := by
      have hmod : 0 < V % B :=
        Nat.pos_of_ne_zero (fun h => hnd (Nat.dvd_of_mod_eq_zero h))
      calc V / B * B = B * (V / B) := Nat.mul_comm _ _
        _ < B * (V / B) + V % B := Nat.lt_add_of_pos_right hmod
        _ = V := Nat.div_add_mod V B
    exact absurd hk (not_le.mpr (lt_of_le_of_lt h1 h2))
  · intro hd
    exact ⟨(Nat.div_mul_cancel hd).symm, rfl⟩

/-- Witness for C3 (amended): `V = 10`, `B = 4`: the count is `3`, tiled
length `12 > 10`, and `3` is minimal since `4` does not divide `10`. -/
theorem loops_needed_amended_witness :
    loops_needed 10 4 = 3 ∧ 10 < loops_needed 10 4 * 4 ∧ loops_needed 10 4 ≤ 3 := by
  have h := loops_needed_amended 10 4 (by decide) (by decide)
  exact ⟨h.1, h.2.1, h.2.2.1 (by decide) 3 (by decide)⟩

/-- C4: for positive voice and background durations, the background-fit
stage produces a background of duration exactly `V` (tiling only when
`B < V`, direct truncation otherwise — both branches of `fitBackground`),
and overlaying it onto the voice keeps the main mix at exactly `V`. -/
theorem background_fit_exact (V B : Nat) (hV : 0 < V) (hB : 0 < B) :
    fitBackground V B = .ok V ∧
    overlayLen V V = V ∧
    (Seg.atom (overlayLen V V)).duration = V := by
  refine ⟨?_, rfl, rfl⟩
  unfold fitBackground
  by_cases h : B < V
  · rw [if_pos h, if_neg (by omega : ¬ B = 0),
      Nat.min_eq_right (le_of_lt (lt_loops_needed_mul V B hB))]
  · rw [if_neg h, Nat.min_eq_right (by omega : V ≤ B)]

/-- Witness for C4: voice 70000 ms, background 30000 ms: the fitted
background and the main mix are both exactly 70000 ms. -/
theorem background_fit_exact_witness :
    fitBackground 70000 30000 = .ok 70000 ∧ overlayLen 70000 70000 = 70000 := by
  have h := background_fit_exact 70000 30000 (by decide) (by decide)
  exact ⟨h.1, h.2.1⟩

/-! ### Duration monotonicity of the composition steps -/

lemma addIntro_duration_ge (b p : Seg) (c g : Int) :
    p.duration ≤ (addIntro b p c g).duration := by
  by_cases hc : c > 0
  · by_cases hcf : 0 < clampCf c b.duration p.duration
    · have hle := clampCf_toNat_le_left hcf
      simp only [addIntro, if_pos hc, if_pos hcf, Seg.duration]
      omega
    · simp only [addIntro, if_pos hc, if_neg hcf, Seg.duration]
      omega
  · by_cases hg : g > 0
    · simp only [addIntro, if_neg hc, if_pos hg, Seg.duration]
      omega
    · simp only [addIntro, if_neg hc, if_neg hg, Seg.duration]
      omega

lemma addOutro_duration_ge (p e : Seg) (c g : Int) :
    p.duration ≤ (addOutro p e c g).duration := by
  by_cases hc : c > 0
  · by_cases hcf : 0 < clampCf c p.duration e.duration
    · have hle := clampCf_toNat_le_right hcf
      by_cases hg : g > 0
      · simp only [addOutro, if_pos hc, if_pos hcf, if_pos hg, Seg.duration]
        omega
      · simp only [addOutro, if_pos hc, if_pos hcf, if_neg hg, Seg.duration]
        omega
    · by_cases hg : g > 0
      · simp only [addOutro, if_pos hc, if_neg hcf, if_pos hg, Seg.duration]
        omega
      · simp only [addOutro, if_pos hc, if_neg hcf, if_neg hg, Seg.duration]
        omega
  · by_cases hg : g > 0
    · simp only [addOutro, if_neg hc, if_pos hg, Seg.duration]
      omega
    · simp only [addOutro, if_neg hc, if_neg hg, Seg.duration]
      omega

/-- C7: for every combination of optional intro/outro, crossfade and gap
settings, the final program is never shorter than the main mix: each
composition step (clamped crossfade, concatenation, or gap insertion)
never shrinks the running program. -/
theorem program_duration_ge_mix (mixed : Seg) (beginning ending : Option Seg)
    (P : MixParams) :
    mixed.duration ≤ (composeProgram mixed beginning ending P).duration := by
  unfold composeProgram
  cases beginning with
  | none =>
      cases ending with
      | none => exact le_refl _
      | some e => exact addOutro_duration_ge mixed e _ _
  | some b =>
      cases ending with
      | none => exact addIntro_duration_ge b mixed _ _
      | some e =>
          exact le_trans (addIntro_duration_ge b mixed _ _)
            (addOutro_duration_ge _ e _ _)

/-! ### Handler-level theorems -/

/-- C8: a present request body lacking (or with falsy) `voice_audio_url`
yields a 400 whose message names the missing field, with no temp directory
and no temp files created: validation happens before any filesystem
activity. -/
theorem missing_voice_url_400 (req : MixRequest) (w : DownloadWorld)
    (hb : req.hasBody = true) (hv : req.voice_audio_url = none) :
    mix_audio req w =
      ⟨400, some "voice_audio_url is required", [], false, false, none⟩ := by
  simp [mix_audio, hb, hv]

/-- Witness for C8: a concrete body with no `voice_audio_url`. -/
theorem missing_voice_url_400_witness :
    mix_audio ⟨true, none, some "intro", some "outro", ⟨500, 300, 250, 0⟩⟩
        ⟨true, true, true, true, 60000, 120000, 3000, 3000⟩ =
      ⟨400, some "voice_audio_url is required", [], false, false, none⟩ :=
  missing_voice_url_400 _ _ rfl rfl

/-- C5 evaluation: when the voice download succeeds and the fixed
background-music download fails, the handler returns 500 — but the early
`return` skips the `except`-block cleanup, so the already-downloaded voice
temp file (and the temp directory) are left behind, NOT deleted before the
response. -/
theorem bg_download_failure_leaves_voice_file (req : MixRequest) (w : DownloadWorld)
    (hb : req.hasBody = true) (hv : req.voice_audio_url.isSome = true)
    (hvOk : w.voiceOk = true) (hbg : w.bgOk = false) :
    (mix_audio req w).status = 500 ∧
    (mix_audio req w).body = some "Failed to download background music" ∧
    (mix_audio req w).filesOnDisk = [TempFile.voice] ∧
    (mix_audio req w).tempDirRemoved = false := by
  obtain ⟨u, hu⟩ := Option.isSome_iff_exists.mp hv
  simp [mix_audio, hb, hu, hvOk, hbg]

/-- Witness for C5: a concrete request when the background fetch 404s. -/
theorem bg_download_failure_leaves_voice_file_witness :
    (mix_audio ⟨true, some "https://host/voice.mp3", some "intro", some "outro",
        ⟨500, 300, 250, 0⟩⟩
      ⟨true, false, true, true, 60000, 120000, 3000, 3000⟩).status = 500 ∧
    (mix_audio ⟨true, some "https://host/voice.mp3", some "intro", some "outro",
        ⟨500, 300, 250, 0⟩⟩
      ⟨true, false, true, true, 60000, 120000, 3000, 3000⟩).filesOnDisk
        = [TempFile.voice] := by
  have h := bg_download_failure_leaves_voice_file
    ⟨true, some "https://host/voice.mp3", some "intro", some "outro", ⟨500, 300, 250, 0⟩⟩
    ⟨true, false, true, true, 60000, 120000, 3000, 3000⟩ rfl rfl rfl rfl
  exact ⟨h.1, h.2.2.1⟩

/-- C10: when all downloads succeed, the voice decodes to positive duration
and the background decodes to zero duration, the loop-count division
raises `ZeroDivisionError`; the `except` block catches it, removes the
created temp files and the directory, and the handler returns a 500 JSON
error rather than crashing or producing partial output. -/
theorem zero_length_background_500 (req : MixRequest) (w : DownloadWorld)
    (hb : req.hasBody = true) (hv : req.voice_audio_url.isSome = true)
    (h1 : w.voiceOk = true) (h2 : w.bgOk = true) (h3 : w.beginningOk = true)
    (h4 : w.endingOk = true) (hvl : 0 < w.voiceLen) (hbl : w.bgLen = 0) :
    (mix_audio req w).status = 500 ∧
    (mix_audio req w).body
      = some "Processing error: integer division or modulo by zero" ∧
    (mix_audio req w).filesOnDisk = [] ∧
    (mix_audio req w).tempDirRemoved = true ∧
    (mix_audio req w).program = none := by
  obtain ⟨u, hu⟩ := Option.isSome_iff_exists.mp hv
  have hfit : fitBackground w.voiceLen w.bgLen
      = .error "integer division or modulo by zero" := by
    unfold fitBackground
    rw [hbl, if_pos hvl, if_pos rfl]
  simp [mix_audio, hb, hu, h1, h2, h3, h4, hfit]

/-- Witness for C10: a 60000 ms voice against a zero-length background. -/
theorem zero_length_background_500_witness :
    (mix_audio ⟨true, some "https://host/voice.mp3", some "intro", some "outro",
        ⟨500, 300, 250, 0⟩⟩
      ⟨true, true, true, true, 60000, 0, 3000, 3000⟩).status = 500 ∧
    (mix_audio ⟨true, some "https://host/voice.mp3", some "intro", some "outro",
        ⟨500, 300, 250, 0⟩⟩
      ⟨true, true, true, true, 60000, 0, 3000, 3000⟩).filesOnDisk = [] := by
  have h := zero_length_background_500
    ⟨true, some "https://host/voice.mp3", some "intro", some "outro", ⟨500, 300, 250, 0⟩⟩
    ⟨true, true, true, true, 60000, 0, 3000, 3000⟩ rfl rfl rfl rfl rfl rfl
    (by decide) rfl
  exact ⟨h.1, h.2.2.1⟩
